import Mathlib

/-!
Verification of the go-updater repository's writer subsystem and update driver.

The Go sources are shallowly embedded: machine state that Go mutates in place
(the filesystem, the `FileBuffer` struct, the `DelayedFile` struct) is passed
and returned explicitly; outcomes of operating-system calls that can fail for
external reasons (temp-file creation, `os.Create`, `file.Write`, `io.Copy`,
`os.Rename`, `os.Chmod`) are supplied by explicit oracle arguments, so that
theorems can quantify over every possible I/O outcome.  A Go `panic` is a
distinct result constructor, never an error value.

Two versions of the writer file exist in the repository: the copy-based
`DelayedFile.Close` (namespace `CV`, from writers.go) and the rename-based
one with permission preservation and an abort-gated `FileBuffer`
(namespace `RV`, from the second version of the file).
-/

/-- A Go `error` value: either `errors.New msg` with its exact message, or an
opaque error produced by the operating system, identified by a tag. -/
inductive GoError where
  | errorsNew (msg : String)
  | osError (tag : String)
deriving DecidableEq

/-- Result of running a Go function: a normal return value, or a panic. -/
inductive GoResult (α : Type) where
  | ret (val : α)
  | panicked (msg : String)
deriving DecidableEq

/-- A file on disk: its byte contents and its permission mode bits. -/
structure FSFile where
  data : List Nat
  mode : Nat
deriving DecidableEq

/-- The filesystem: a partial map from paths to files. -/
def FS : Type := String → Option FSFile

/-- Store a file at a path. -/
def FS.set (fs : FS) (p : String) (f : FSFile) : FS :=
  fun q => if q = p then some f else fs q

/-- Delete the entry at a path (no-op if absent). -/
def FS.del (fs : FS) (p : String) : FS :=
  fun q => if q = p then none else fs q

/-- `os.Create`: truncates an existing file (keeping its mode) or creates a
new one with the default mode `0o666 = 438`.  The `err` oracle stands for an
externally caused failure (missing directory, permissions, full disk); on
failure the filesystem is unchanged. -/
def osCreate (fs : FS) (p : String) (err : Option GoError) : FS × Option GoError :=
  match err with
  | some e => (fs, some e)
  | none =>
    match fs p with
    | some f => (fs.set p ⟨[], f.mode⟩, none)
    | none => (fs.set p ⟨[], 438⟩, none)

/-- `os.Remove` with its error ignored, as the Go code ignores it. -/
def osRemove (fs : FS) (p : String) : FS := fs.del p

/-- An open `*os.File` handle: the path it refers to and whether `Close` has
already been called on it.  A second `Close` on the same handle returns the
"file already closed" error, as `os.File.Close` does. -/
structure Handle where
  path : String
  closed : Bool
deriving DecidableEq

/-- `file.Close` on an `*os.File`. -/
def handleClose (h : Handle) : Handle × Option GoError :=
  if h.closed then (h, some (GoError.osError "file already closed"))
  else ({ h with closed := true }, none)

/-- `file.Write`: appends the bytes to the file the handle refers to.  The
`err` oracle injects an external I/O failure, in which case nothing is
written. -/
def handleWrite (fs : FS) (h : Handle) (b : List Nat) (err : Option GoError) :
    FS × Nat × Option GoError :=
  match err with
  | some e => (fs, 0, some e)
  | none =>
    match fs h.path with
    | some f => (fs.set h.path ⟨f.data ++ b, f.mode⟩, b.length, none)
    | none => (fs, 0, some (GoError.osError "write on missing file"))

/-- Oracle for one `FileBuffer.Write` call: the outcome of `ioutil.TempFile`
(a fresh path, or an error) should the call have to allocate a temporary
file, the outcome of `os.Create` should it open a pre-set path, and the
outcome of the underlying `file.Write`. -/
structure WriteOracle where
  tempRes : Except GoError String
  createErr : Option GoError
  writeErr : Option GoError

/-- The temporary path an oracle would hand out, if any. -/
def oracleTempPath (o : WriteOracle) : Option String :=
  match o.tempRes with
  | .ok p => some p
  | .error _ => none

namespace CV

/-- `FileBuffer` from writers.go: a byte buffer stored on the filesystem.
`opener : sync.Once` is modelled by the `openerDone` flag (Go marks the once
as done even when the guarded function panics). -/
structure FileBuffer where
  Path : String
  openerDone : Bool
  openError : Option GoError
  handle : Option Handle
deriving DecidableEq

/-- A `&FileBuffer{Path: p}` literal (`p = ""` for the zero value). -/
def FileBuffer.mk0 (p : String) : FileBuffer := ⟨p, false, none, none⟩

/-- `FileBuffer.Write` from writers.go.  On the first call the handle is
resolved: with no `Path`, `ioutil.TempFile("", "atomic-")` is called (it
creates a fresh file with mode `0o600 = 384`) and then
`a.Path = a.handle.Name()` runs — which dereferences a nil pointer and
panics when `TempFile` failed; with a `Path`, `os.Create(a.Path)` is called.
A captured open error is returned by every later call. -/
def FileBuffer.write (a : FileBuffer) (fs : FS) (b : List Nat) (o : WriteOracle) :
    FileBuffer × FS × GoResult (Nat × Option GoError) :=
  let step : FileBuffer × FS × Bool :=
    if a.openerDone then (a, fs, false)
    else if a.Path = "" then
      match o.tempRes with
      | .ok p =>
        ({ a with openerDone := true, handle := some ⟨p, false⟩, Path := p },
         fs.set p ⟨[], 384⟩, false)
      | .error e =>
        ({ a with openerDone := true, openError := some e, handle := none }, fs, true)
    else
      match o.createErr with
      | some e => ({ a with openerDone := true, openError := some e }, fs, false)
      | none =>
        ({ a with openerDone := true, handle := some ⟨a.Path, false⟩ },
         (osCreate fs a.Path none).1, false)
  match step with
  | (a1, fs1, true) =>
    (a1, fs1, .panicked "runtime error: invalid memory address or nil pointer dereference")
  | (a1, fs1, false) =>
    match a1.openError with
    | some e => (a1, fs1, .ret (0, some e))
    | none =>
      match a1.handle with
      | none => (a1, fs1, .panicked "nil handle")
      | some h =>
        match handleWrite fs1 h b o.writeErr with
        | (fs2, n, e) => (a1, fs2, .ret (n, e))

/-- `FileBuffer.Close` from writers.go: closes the handle if one was ever
opened, otherwise succeeds trivially. -/
def FileBuffer.close (a : FileBuffer) : FileBuffer × Option GoError :=
  match a.handle with
  | some h =>
    match handleClose h with
    | (h2, e) => ({ a with handle := some h2 }, e)
  | none => (a, none)

/-- `DelayedFile` from writers.go.  The `copier` field, which
`NewDelayedFile` sets to `io.Copy`, is modelled by the copy step of `close`
itself, with an oracle standing for an injected copier failure (as the
repository's tests inject one by replacing the field). -/
structure DelayedFile where
  path : String
  buffer : FileBuffer
  aborted : Bool
deriving DecidableEq

/-- `NewDelayedFile`. -/
def NewDelayedFile (path : String) : DelayedFile :=
  { path := path, buffer := FileBuffer.mk0 "", aborted := false }

/-- `DelayedFile.Write`: forwarded verbatim to the internal buffer. -/
def DelayedFile.write (f : DelayedFile) (fs : FS) (b : List Nat) (o : WriteOracle) :
    DelayedFile × FS × GoResult (Nat × Option GoError) :=
  match f.buffer.write fs b o with
  | (buf, fs1, r) => ({ f with buffer := buf }, fs1, r)

/-- `DelayedFile.Abort`: sets the one-way flag. -/
def DelayedFile.abort (f : DelayedFile) : DelayedFile := { f with aborted := true }

/-- Oracle for one `DelayedFile.Close` call: the outcome of
`os.Create(f.path)`, an externally injected failure of opening the staging
file beyond its plain absence, and the outcome of the copy together with the
number of bytes the copier moved before failing. -/
structure CloseOracle where
  createDestErr : Option GoError
  openSrcErr : Option GoError
  copyErr : Option GoError
  copyN : Nat

/-- Append bytes to an existing file (used by the copy step). -/
def FS.append (fs : FS) (p : String) (bs : List Nat) : FS :=
  match fs p with
  | some f => fs.set p ⟨f.data ++ bs, f.mode⟩
  | none => fs

/-- The body of `DelayedFile.Close` from writers.go, before the deferred
`os.Remove` of the staging path runs: close the buffer; if aborted return
nil; create/truncate the destination; open the staging file; stream its
bytes to the destination. -/
def DelayedFile.closeBody (f : DelayedFile) (fs : FS) (o : CloseOracle) :
    DelayedFile × FS × Option GoError :=
  let f1 : DelayedFile := { f with buffer := f.buffer.close.1 }
  if f1.aborted then (f1, fs, none)
  else
    match osCreate fs f1.path o.createDestErr with
    | (_, some e) => (f1, fs, some e)
    | (fs1, none) =>
      match fs1 f1.buffer.Path with
      | none => (f1, fs1, some (GoError.osError "open staging: no such file"))
      | some src =>
        match o.openSrcErr with
        | some e => (f1, fs1, some e)
        | none =>
          match o.copyErr with
          | some e => (f1, FS.append fs1 f1.path (src.data.take o.copyN), some e)
          | none => (f1, FS.append fs1 f1.path src.data, none)

/-- `DelayedFile.Close` from writers.go: the body, then the deferred
`os.Remove(f.buffer.Path)` (whose argument Go evaluated on entry) runs on
every path out of the function, its own error ignored. -/
def DelayedFile.close (f : DelayedFile) (fs : FS) (o : CloseOracle) :
    DelayedFile × FS × Option GoError :=
  match f.closeBody fs o with
  | (f2, fs2, e) => (f2, osRemove fs2 f.buffer.Path, e)

end CV

namespace RV

/-- `FileBuffer` from the second version of the writer file: as in `CV`, plus
the `aborted` flag that gates every write. -/
structure FileBuffer where
  Path : String
  openerDone : Bool
  openError : Option GoError
  handle : Option Handle
  aborted : Bool
deriving DecidableEq

/-- A `&FileBuffer{Path: p}` literal (`p = ""` for the zero value). -/
def FileBuffer.mk0 (p : String) : FileBuffer := ⟨p, false, none, none, false⟩

/-- `FileBuffer.Write` from the second version: rejects the write with
`errors.New("Write operations aborted.")` when aborted, then proceeds as the
`CV` version (including the nil-handle panic when `ioutil.TempFile` fails). -/
def FileBuffer.write (a : FileBuffer) (fs : FS) (b : List Nat) (o : WriteOracle) :
    FileBuffer × FS × GoResult (Nat × Option GoError) :=
  if a.aborted then
    (a, fs, .ret (0, some (GoError.errorsNew "Write operations aborted.")))
  else
    let step : FileBuffer × FS × Bool :=
      if a.openerDone then (a, fs, false)
      else if a.Path = "" then
        match o.tempRes with
        | .ok p =>
          ({ a with openerDone := true, handle := some ⟨p, false⟩, Path := p },
           fs.set p ⟨[], 384⟩, false)
        | .error e =>
          ({ a with openerDone := true, openError := some e, handle := none }, fs, true)
      else
        match o.createErr with
        | some e => ({ a with openerDone := true, openError := some e }, fs, false)
        | none =>
          ({ a with openerDone := true, handle := some ⟨a.Path, false⟩ },
           (osCreate fs a.Path none).1, false)
    match step with
    | (a1, fs1, true) =>
      (a1, fs1, .panicked "runtime error: invalid memory address or nil pointer dereference")
    | (a1, fs1, false) =>
      match a1.openError with
      | some e => (a1, fs1, .ret (0, some e))
      | none =>
        match a1.handle with
        | none => (a1, fs1, .panicked "nil handle")
        | some h =>
          match handleWrite fs1 h b o.writeErr with
          | (fs2, n, e) => (a1, fs2, .ret (n, e))

/-- `FileBuffer.Abort`: subsequent calls to `Write` will return an error. -/
def FileBuffer.abort (a : FileBuffer) : FileBuffer := { a with aborted := true }

/-- `FileBuffer.Close` from the second version (same text as `CV`). -/
def FileBuffer.close (a : FileBuffer) : FileBuffer × Option GoError :=
  match a.handle with
  | some h =>
    match handleClose h with
    | (h2, e) => ({ a with handle := some h2 }, e)
  | none => (a, none)

/-- `DelayedFile` from the second version of the writer file. -/
structure DelayedFile where
  path : String
  buffer : FileBuffer
  aborted : Bool
deriving DecidableEq

/-- `NewDelayedFile`. -/
def NewDelayedFile (path : String) : DelayedFile :=
  { path := path, buffer := FileBuffer.mk0 "", aborted := false }

/-- `DelayedFile.Write`: forwarded verbatim to the internal buffer. -/
def DelayedFile.write (f : DelayedFile) (fs : FS) (b : List Nat) (o : WriteOracle) :
    DelayedFile × FS × GoResult (Nat × Option GoError) :=
  match f.buffer.write fs b o with
  | (buf, fs1, r) => ({ f with buffer := buf }, fs1, r)

/-- `DelayedFile.Abort`: sets the one-way flag. -/
def DelayedFile.abort (f : DelayedFile) : DelayedFile := { f with aborted := true }

/-- Oracle for one rename-based `DelayedFile.Close`: externally injected
failures of `os.Rename` and of `os.Chmod`. -/
structure RCloseOracle where
  renameErr : Option GoError
  chmodErr : Option GoError
deriving DecidableEq

/-- The body of the rename-based `DelayedFile.Close`, before the deferred
`os.Remove` of the staging path runs: close the buffer; if aborted return
nil; capture the destination's mode via `os.Stat` (its error ignored, the
mode pointer left nil when the destination is absent); `os.Rename` the
staging file onto the destination; if a mode was captured, `os.Chmod` it
back onto the destination and return that call's outcome. -/
def DelayedFile.closeBody (f : DelayedFile) (fs : FS) (o : RCloseOracle) :
    DelayedFile × FS × Option GoError :=
  let f1 : DelayedFile := { f with buffer := f.buffer.close.1 }
  if f1.aborted then (f1, fs, none)
  else
    let mode : Option Nat := (fs f1.path).map (fun i => i.mode)
    match o.renameErr with
    | some e => (f1, fs, some e)
    | none =>
      match fs f1.buffer.Path with
      | none => (f1, fs, some (GoError.osError "rename staging: no such file"))
      | some src =>
        let fs1 : FS := (fs.del f1.buffer.Path).set f1.path src
        match mode with
        | none => (f1, fs1, none)
        | some m =>
          match o.chmodErr with
          | some e => (f1, fs1, some e)
          | none => (f1, fs1.set f1.path ⟨src.data, m⟩, none)

/-- The rename-based `DelayedFile.Close`: the body, then the deferred
`os.Remove(f.buffer.Path)` runs on every path out, its own error ignored. -/
def DelayedFile.close (f : DelayedFile) (fs : FS) (o : RCloseOracle) :
    DelayedFile × FS × Option GoError :=
  match f.closeBody fs o with
  | (f2, fs2, e) => (f2, osRemove fs2 f.buffer.Path, e)

/-- `AbortBuffer`: an in-memory buffer that can be aborted.  The underlying
`bytes.Buffer` is its byte contents. -/
structure AbortBuffer where
  Buffer : List Nat
  aborted : Bool
deriving DecidableEq

/-- `NewAbortBuffer`. -/
def NewAbortBuffer (b : List Nat) : AbortBuffer := ⟨b, false⟩

/-- `AbortBuffer.Write`: fails with
`errors.New("Write operations are aborted.")` when aborted; otherwise
appends to the buffer (`bytes.Buffer.Write` always returns `len b, nil`). -/
def AbortBuffer.write (a : AbortBuffer) (b : List Nat) :
    AbortBuffer × Nat × Option GoError :=
  if a.aborted then
    (a, 0, some (GoError.errorsNew "Write operations are aborted."))
  else
    ({ a with Buffer := a.Buffer ++ b }, b.length, none)

/-- `AbortBuffer.Abort`: blocks all subsequent write operations. -/
def AbortBuffer.abort (a : AbortBuffer) : AbortBuffer := { a with aborted := true }

end RV

/-! ## The update driver (`Updater`) -/

/-- The data a value implementing the `Asset` interface exposes: a file name
and the byte stream its `Write` method would produce. -/
structure AssetData where
  name : String
  content : List Nat
deriving DecidableEq

/-- The data a value implementing the `Release` interface exposes. -/
structure ReleaseData where
  name : String
  information : String
  identifier : String
  assets : List AssetData
deriving DecidableEq

/-- The `App` interface: `Query` mutates the implementing value (state type
`α`) and may fail; `LatestRelease` reads it and returns the most recent
release, or nil. -/
structure App (α : Type) where
  query : α → α × Option GoError
  latestRelease : α → Option ReleaseData

/-- `Updater`.  `WriterForAsset` returns an abort writer (of abstract type
`ω`), nil (`none`) to skip the asset, or an error. -/
structure Updater (α ω : Type) where
  App : App α
  CurrentReleaseIdentifier : String
  WriterForAsset : AssetData → Except GoError (Option ω)

/-- `Updater.Check`: query the app; take the latest release (an error if
there is none); return nil when its identifier equals the current one,
otherwise return the release. -/
def Updater.check {α ω : Type} (u : Updater α ω) (s : α) :
    α × Option ReleaseData × Option GoError :=
  match u.App.query s with
  | (s1, some e) => (s1, none, some e)
  | (s1, none) =>
    match u.App.latestRelease s1 with
    | none => (s1, none, some (GoError.errorsNew "No release information was found."))
    | some r =>
      if r.identifier = u.CurrentReleaseIdentifier then (s1, none, none)
      else (s1, some r, none)

/-! ## The GitHub release source (`githubApp`) -/

/-- The stored form of one GitHub release: the fields of the fetched
`github.RepositoryRelease` that the code reads, the resolved git reference
SHA (nil until `queryReference` succeeds), and the converted asset list. -/
structure GithubRelease where
  tagName : Option String
  body : Option String
  assets : List String
  referenceSHA : Option String
deriving DecidableEq

/-- `newGithubRelease`: wraps a fetched repository release; the reference is
not resolved yet. -/
def newGithubRelease (tagName body : Option String) (assets : List String) :
    GithubRelease :=
  ⟨tagName, body, assets, none⟩

/-- `githubApp`: the stored release slice is `none` while it is Go's nil
slice, and `some l` once `Query` has stored a slice — which is non-nil even
when `l` is empty, because `make([]Release, 0)` is a non-nil slice. -/
structure GithubState where
  owner : String
  repository : String
  releases : Option (List GithubRelease)
deriving DecidableEq

/-- `NewGitHub` (the HTTP client is not part of the state model). -/
def NewGitHub (owner repository : String) : GithubState :=
  ⟨owner, repository, none⟩

/-- Oracle for the network calls `Query` makes: the outcome of
`ListReleases` (each fetched release as tag name, body, asset names) and the
outcome of `GetRef` for the latest release's tag. -/
structure GithubOracle where
  listReleases : Except GoError (List (Option String × Option String × List String))
  getRef : Except GoError String

/-- `githubRelease.queryReference`: fails when the release has no tag name,
otherwise resolves the tag to a reference via `GetRef`. -/
def GithubRelease.queryReference (r : GithubRelease) (o : GithubOracle) :
    GithubRelease × Option GoError :=
  match r.tagName with
  | none => (r, some (GoError.errorsNew "No tag name available."))
  | some _ =>
    match o.getRef with
    | .error e => (r, some e)
    | .ok sha => ({ r with referenceSHA := some sha }, none)

/-- `githubApp.Query`: list the releases (propagating a failure), store the
converted slice (non-nil even when empty), and if it is non-empty resolve
the first release's reference, propagating that failure with the slice
already stored. -/
def GithubState.query (app : GithubState) (o : GithubOracle) :
    GithubState × Option GoError :=
  match o.listReleases with
  | .error e => (app, some e)
  | .ok rs =>
    let s := rs.map (fun r => newGithubRelease r.1 r.2.1 r.2.2)
    let app1 : GithubState := { app with releases := some s }
    match s with
    | [] => (app1, none)
    | r0 :: rest =>
      match r0.queryReference o with
      | (_, some e) => (app1, some e)
      | (r0', none) => ({ app with releases := some (r0' :: rest) }, none)

/-- `githubApp.LatestRelease`: returns nil when the stored slice is nil;
otherwise evaluates `app.releases[0]`, which panics with an index-out-of-
range runtime error when the stored slice is empty. -/
def GithubState.latestRelease (app : GithubState) : GoResult (Option GithubRelease) :=
  match app.releases with
  | none => .ret none
  | some [] => .panicked "runtime error: index out of range [0] with length 0"
  | some (r :: _) => .ret (some r)

/-! ## Caller-side iteration helpers -/

/-- A write oracle under which every I/O call succeeds, handing out `t` as
the temporary path. -/
def benignW (t : String) : WriteOracle := ⟨.ok t, none, none⟩

/-- A close oracle under which every I/O call succeeds. -/
def benignC : CV.CloseOracle := ⟨none, none, none, 0⟩

namespace CV

/-- A caller loop writing the chunks one `DelayedFile.Write` at a time, all
I/O succeeding, with `t` the temporary path the first write receives. -/
def DelayedFile.writeList (f : DelayedFile) (fs : FS) (chunks : List (List Nat))
    (t : String) : DelayedFile × FS :=
  match chunks with
  | [] => (f, fs)
  | b :: rest =>
    match f.write fs b (benignW t) with
    | (f1, fs1, _) => f1.writeList fs1 rest t

/-- A caller loop writing chunks with per-call oracles (arbitrary I/O
outcomes). -/
def DelayedFile.writeSeq (f : DelayedFile) (fs : FS)
    (ws : List (List Nat × WriteOracle)) : DelayedFile × FS :=
  match ws with
  | [] => (f, fs)
  | (b, o) :: rest =>
    match f.write fs b o with
    | (f1, fs1, _) => f1.writeSeq fs1 rest

end CV

/-! ## Basic lemmas about the filesystem model -/

@[simp] theorem FS.set_same (fs : FS) (p : String) (f : FSFile) :
    fs.set p f p = some f := by simp [FS.set]

@[simp] theorem FS.set_other (fs : FS) (p q : String) (f : FSFile) (h : q ≠ p) :
    fs.set p f q = fs q := by simp [FS.set, h]

@[simp] theorem FS.del_same (fs : FS) (p : String) : fs.del p p = none := by
  simp [FS.del]

@[simp] theorem FS.del_other (fs : FS) (p q : String) (h : q ≠ p) :
    fs.del p q = fs q := by simp [FS.del, h]

theorem FS.set_set (fs : FS) (p : String) (f g : FSFile) :
    (fs.set p f).set p g = fs.set p g := by
  funext q
  by_cases h : q = p <;> simp [FS.set, h]

/-! ## Helper lemmas about the embedded operations -/

/-- Closing a buffer never changes its backing path. -/
theorem RV.FileBuffer.close_fst_Path (a : RV.FileBuffer) : a.close.1.Path = a.Path := by
  unfold RV.FileBuffer.close
  cases hh : a.handle with
  | none => rfl
  | some h =>
    unfold handleClose
    split <;> rfl

/-- The very first write of a fresh `DelayedFile`, with every I/O call
succeeding: allocates the temporary file `t` (mode `0o600 = 384`) and
writes the chunk into it. -/
theorem CV.DelayedFile.write_first (P t : String) (fs : FS) (b : List Nat) :
    (CV.NewDelayedFile P).write fs b (benignW t) =
      (⟨P, ⟨t, true, none, some ⟨t, false⟩⟩, false⟩, fs.set t ⟨b, 384⟩,
        .ret (b.length, none)) := by
  simp [CV.NewDelayedFile, CV.DelayedFile.write, CV.FileBuffer.write, CV.FileBuffer.mk0,
    benignW, handleWrite, FS.set_set]

/-- A write in the steady state (temporary file `t` open, holding `d`),
with every I/O call succeeding: appends the chunk to `t`. -/
theorem CV.DelayedFile.write_steady (P t t' : String) (fs : FS) (b d : List Nat)
    (m : Nat) (hfs : fs t = some ⟨d, m⟩) :
    (⟨P, ⟨t, true, none, some ⟨t, false⟩⟩, false⟩ : CV.DelayedFile).write fs b (benignW t') =
      (⟨P, ⟨t, true, none, some ⟨t, false⟩⟩, false⟩, fs.set t ⟨d ++ b, m⟩,
        .ret (b.length, none)) := by
  simp [CV.DelayedFile.write, CV.FileBuffer.write, benignW, handleWrite, hfs]

/-- Iterating steady-state writes appends the concatenation of the chunks. -/
theorem CV.DelayedFile.writeList_steady (chunks : List (List Nat)) (P t t' : String)
    (fs : FS) (d : List Nat) (m : Nat) (hfs : fs t = some ⟨d, m⟩) :
    (⟨P, ⟨t, true, none, some ⟨t, false⟩⟩, false⟩ : CV.DelayedFile).writeList fs chunks t' =
      (⟨P, ⟨t, true, none, some ⟨t, false⟩⟩, false⟩, fs.set t ⟨d ++ chunks.flatten, m⟩) := by
  induction chunks generalizing fs d with
  | nil =>
    unfold CV.DelayedFile.writeList
    refine Prod.ext rfl ?_
    funext q
    by_cases h : q = t
    · subst h; simp [hfs]
    · simp [h]
  | cons b rest ih =>
    unfold CV.DelayedFile.writeList
    rw [CV.DelayedFile.write_steady P t t' fs b d m hfs]
    dsimp only
    rw [ih (fs.set t ⟨d ++ b, m⟩) (d ++ b) (FS.set_same fs t ⟨d ++ b, m⟩)]
    simp [FS.set_set, List.append_assoc]

/-- Closing a ready (written, non-aborted) `DelayedFile`: whenever the close
reports no error, the destination holds exactly the staged bytes (with the
default `os.Create` mode `0o666 = 438`) and the staging file is gone. -/
theorem CV.DelayedFile.close_ready (P t : String) (fs : FS) (d : List Nat) (m : Nat)
    (o : CV.CloseOracle)
    (htP : t ≠ P)
    (hsrc : fs t = some ⟨d, m⟩)
    (hdest : fs P = none)
    (hok : ((⟨P, ⟨t, true, none, some ⟨t, false⟩⟩, false⟩ : CV.DelayedFile).close fs o).2.2 =
      none) :
    ((⟨P, ⟨t, true, none, some ⟨t, false⟩⟩, false⟩ : CV.DelayedFile).close fs o).2.1 P =
      some ⟨d, 438⟩ ∧
    ((⟨P, ⟨t, true, none, some ⟨t, false⟩⟩, false⟩ : CV.DelayedFile).close fs o).2.1 t =
      none := by
  rcases o with ⟨ce, se, pe, k⟩
  cases ce with
  | some e =>
    simp [CV.DelayedFile.close, CV.DelayedFile.closeBody, CV.FileBuffer.close,
      handleClose, osCreate] at hok
  | none =>
    cases se with
    | some e =>
      simp [CV.DelayedFile.close, CV.DelayedFile.closeBody, CV.FileBuffer.close,
        handleClose, osCreate, hdest, htP, hsrc] at hok
    | none =>
      cases pe with
      | some e =>
        simp [CV.DelayedFile.close, CV.DelayedFile.closeBody, CV.FileBuffer.close,
          handleClose, osCreate, hdest, htP, hsrc] at hok
      | none =>
        constructor <;>
          simp [CV.DelayedFile.close, CV.DelayedFile.closeBody, CV.FileBuffer.close,
            handleClose, osCreate, osRemove, CV.FS.append, hdest, htP, hsrc, Ne.symm htP]

/-- The per-call frame property of `FileBuffer.Write`: under any I/O
outcome, a write never touches a path that is neither the buffer's backing
path (current, or freshly handed out by the temporary-file oracle) nor
reachable through its open handle; and the backing path and handle stay
away from such a path. -/
theorem CV.FileBuffer.write_frame (a : CV.FileBuffer) (fs : FS) (b : List Nat)
    (o : WriteOracle) (q : String)
    (hP : a.Path ≠ q)
    (hH : ∀ h : Handle, a.handle = some h → h.path ≠ q)
    (hT : oracleTempPath o ≠ some q) :
    ((a.write fs b o).2.1) q = fs q ∧
    (a.write fs b o).1.Path ≠ q ∧
    (∀ h : Handle, (a.write fs b o).1.handle = some h → h.path ≠ q) := by
  have hT' : ∀ p, o.tempRes = Except.ok p → p ≠ q := by
    intro p hp hq
    exact hT (by rw [oracleTempPath, hp, hq])
  obtain ⟨Pa, done, oerr, hdl⟩ := a
  obtain ⟨tres, cerr, werr⟩ := o
  simp only at hP hH hT'
  cases done with
  | true =>
    cases oerr with
    | some e => exact ⟨rfl, hP, hH⟩
    | none =>
      cases hdl with
      | none => exact ⟨rfl, hP, hH⟩
      | some h0 =>
        have hp0 : h0.path ≠ q := hH h0 rfl
        cases werr with
        | some e => exact ⟨rfl, hP, hH⟩
        | none =>
          rcases hfp : fs h0.path with _ | f
          · have hw : (⟨Pa, true, none, some h0⟩ : CV.FileBuffer).write fs b
                ⟨tres, cerr, none⟩ =
                (⟨Pa, true, none, some h0⟩, fs,
                  .ret (0, some (GoError.osError "write on missing file"))) := by
              simp [CV.FileBuffer.write, handleWrite, hfp]
            rw [hw]
            exact ⟨rfl, hP, hH⟩
          · have hw : (⟨Pa, true, none, some h0⟩ : CV.FileBuffer).write fs b
                ⟨tres, cerr, none⟩ =
                (⟨Pa, true, none, some h0⟩,
                  fs.set h0.path ⟨f.data ++ b, f.mode⟩, .ret (b.length, none)) := by
              simp [CV.FileBuffer.write, handleWrite, hfp]
            rw [hw]
            exact ⟨FS.set_other fs h0.path q _ (Ne.symm hp0), hP, hH⟩
  | false =>
    by_cases hpe : Pa = ""
    · subst hpe
      cases tres with
      | ok p =>
        have hp : p ≠ q := hT' p rfl
        cases oerr with
        | some e =>
          exact ⟨FS.set_other fs p q _ (Ne.symm hp), hp,
            by intro h hh; cases hh; exact hp⟩
        | none =>
          cases werr with
          | some e =>
            exact ⟨FS.set_other fs p q _ (Ne.symm hp), hp,
              by intro h hh; cases hh; exact hp⟩
          | none =>
            have hw : (⟨"", false, none, hdl⟩ : CV.FileBuffer).write fs b
                ⟨.ok p, cerr, none⟩ =
                (⟨p, true, none, some ⟨p, false⟩⟩,
                  (fs.set p ⟨[], 384⟩).set p ⟨b, 384⟩, .ret (b.length, none)) := by
              simp [CV.FileBuffer.write, handleWrite]
            rw [hw]
            refine ⟨?_, hp, by intro h hh; cases hh; exact hp⟩
            exact (FS.set_other _ p q _ (Ne.symm hp)).trans
              (FS.set_other fs p q _ (Ne.symm hp))
      | error e =>
        exact ⟨rfl, hP, by intro h hh; cases hh⟩
    · cases cerr with
      | some e =>
        have hw : (⟨Pa, false, oerr, hdl⟩ : CV.FileBuffer).write fs b
            ⟨tres, some e, werr⟩ =
            (⟨Pa, true, some e, hdl⟩, fs, .ret (0, some e)) := by
          simp [CV.FileBuffer.write, hpe]
        rw [hw]
        exact ⟨rfl, hP, hH⟩
      | none =>
        rcases hfp : fs Pa with _ | f
        · cases oerr with
          | some e =>
            have hw : (⟨Pa, false, some e, hdl⟩ : CV.FileBuffer).write fs b
                ⟨tres, none, werr⟩ =
                (⟨Pa, true, some e, some ⟨Pa, false⟩⟩, fs.set Pa ⟨[], 438⟩,
                  .ret (0, some e)) := by
              simp [CV.FileBuffer.write, osCreate, hpe, hfp]
            rw [hw]
            exact ⟨FS.set_other fs Pa q _ (Ne.symm hP), hP,
              by intro h hh; cases hh; exact hP⟩
          | none =>
            cases werr with
            | some e =>
              have hw : (⟨Pa, false, none, hdl⟩ : CV.FileBuffer).write fs b
                  ⟨tres, none, some e⟩ =
                  (⟨Pa, true, none, some ⟨Pa, false⟩⟩, fs.set Pa ⟨[], 438⟩,
                    .ret (0, some e)) := by
                simp [CV.FileBuffer.write, handleWrite, osCreate, hpe, hfp]
              rw [hw]
              exact ⟨FS.set_other fs Pa q _ (Ne.symm hP), hP,
                by intro h hh; cases hh; exact hP⟩
            | none =>
              have hw : (⟨Pa, false, none, hdl⟩ : CV.FileBuffer).write fs b
                  ⟨tres, none, none⟩ =
                  (⟨Pa, true, none, some ⟨Pa, false⟩⟩,
                    (fs.set Pa ⟨[], 438⟩).set Pa ⟨b, 438⟩, .ret (b.length, none)) := by
                simp [CV.FileBuffer.write, handleWrite, osCreate, hpe, hfp]
              rw [hw]
              refine ⟨?_, hP, by intro h hh; cases hh; exact hP⟩
              exact (FS.set_other _ Pa q _ (Ne.symm hP)).trans
                (FS.set_other fs Pa q _ (Ne.symm hP))
        · cases oerr with
          | some e =>
            have hw : (⟨Pa, false, some e, hdl⟩ : CV.FileBuffer).write fs b
                ⟨tres, none, werr⟩ =
                (⟨Pa, true, some e, some ⟨Pa, false⟩⟩, fs.set Pa ⟨[], f.mode⟩,
                  .ret (0, some e)) := by
              simp [CV.FileBuffer.write, osCreate, hpe, hfp]
            rw [hw]
            exact ⟨FS.set_other fs Pa q _ (Ne.symm hP), hP,
              by intro h hh; cases hh; exact hP⟩
          | none =>
            cases werr with
            | some e =>
              have hw : (⟨Pa, false, none, hdl⟩ : CV.FileBuffer).write fs b
                  ⟨tres, none, some e⟩ =
                  (⟨Pa, true, none, some ⟨Pa, false⟩⟩, fs.set Pa ⟨[], f.mode⟩,
                    .ret (0, some e)) := by
                simp [CV.FileBuffer.write, handleWrite, osCreate, hpe, hfp]
              rw [hw]
              exact ⟨FS.set_other fs Pa q _ (Ne.symm hP), hP,
                by intro h hh; cases hh; exact hP⟩
            | none =>
              have hw : (⟨Pa, false, none, hdl⟩ : CV.FileBuffer).write fs b
                  ⟨tres, none, none⟩ =
                  (⟨Pa, true, none, some ⟨Pa, false⟩⟩,
                    (fs.set Pa ⟨[], f.mode⟩).set Pa ⟨b, f.mode⟩,
                    .ret (b.length, none)) := by
                simp [CV.FileBuffer.write, handleWrite, osCreate, hpe, hfp]
              rw [hw]
              refine ⟨?_, hP, by intro h hh; cases hh; exact hP⟩
              exact (FS.set_other _ Pa q _ (Ne.symm hP)).trans
                (FS.set_other fs Pa q _ (Ne.symm hP))

/-- Iterated frame property: a sequence of writes, under arbitrary per-call
I/O outcomes, never touches a path that is not the buffer's backing path and
is not handed out as a temporary path by any of the oracles. -/
theorem CV.DelayedFile.writeSeq_frame (ws : List (List Nat × WriteOracle)) :
    ∀ (f : CV.DelayedFile) (fs : FS) (q : String),
      f.buffer.Path ≠ q →
      (∀ h : Handle, f.buffer.handle = some h → h.path ≠ q) →
      (∀ w ∈ ws, oracleTempPath w.2 ≠ some q) →
      ((f.writeSeq fs ws).2) q = fs q := by
  induction ws with
  | nil =>
    intro f fs q _ _ _
    rfl
  | cons w rest ih =>
    intro f fs q hP hH hws
    obtain ⟨b, o⟩ := w
    have hfr := CV.FileBuffer.write_frame f.buffer fs b o q hP hH
      (hws ⟨b, o⟩ (List.mem_cons_self _ _))
    rcases hbw : f.buffer.write fs b o with ⟨buf1, fs1, r⟩
    rw [hbw] at hfr
    have hfw : f.write fs b o = ({ f with buffer := buf1 }, fs1, r) := by
      simp [CV.DelayedFile.write, hbw]
    unfold CV.DelayedFile.writeSeq
    rw [hfw]
    exact (ih { f with buffer := buf1 } fs1 q hfr.2.1 hfr.2.2
      (fun w hw' => hws w (List.mem_cons_of_mem _ hw'))).trans hfr.1

/-- C4: for every `DelayedFile` close — in both versions of the code, under
every combination of I/O outcomes (success, abort, destination-creation
failure, staging-missing failure, copy failure, rename failure, chmod
failure) — the staging file referenced by the internal `FileBuffer` no
longer exists after `Close` returns, because the deferred
`os.Remove(f.buffer.Path)` runs last on every path out. -/
theorem delayedFile_close_staging_gone :
    (∀ (f : CV.DelayedFile) (fs : FS) (o : CV.CloseOracle),
      ((f.close fs o).2.1) f.buffer.Path = none) ∧
    (∀ (g : RV.DelayedFile) (fs : FS) (o : RV.RCloseOracle),
      ((g.close fs o).2.1) g.buffer.Path = none) := by
  constructor
  · intro f fs o
    rcases h : f.closeBody fs o with ⟨f2, fs2, e⟩
    simp [CV.DelayedFile.close, h, osRemove]
  · intro g fs o
    rcases h : g.closeBody fs o with ⟨g2, fs2, e⟩
    simp [RV.DelayedFile.close, h, osRemove]

/-- C5: on every abortable write target (`AbortBuffer`, and the `FileBuffer`
of the version that has `Abort`), a write after `Abort` fails with the abort
error message and leaves all state — the accumulated bytes, the buffer
fields, the filesystem — exactly unchanged. -/
theorem abort_blocks_further_writes :
    (∀ (a : RV.AbortBuffer) (b : List Nat),
      (a.abort).write b =
        (a.abort, 0, some (GoError.errorsNew "Write operations are aborted.")) ∧
      ((a.abort).write b).1.Buffer = a.Buffer) ∧
    (∀ (a : RV.FileBuffer) (fs : FS) (b : List Nat) (o : WriteOracle),
      (a.abort).write fs b o =
        (a.abort, fs, .ret (0, some (GoError.errorsNew "Write operations aborted.")))) := by
  constructor
  · intro a b
    constructor <;> simp [RV.AbortBuffer.write, RV.AbortBuffer.abort]
  · intro a fs b o
    simp [RV.FileBuffer.write, RV.FileBuffer.abort]

/-- C6 (code bug): with no `Path` set, when `ioutil.TempFile` fails the
first `Write` does not return the captured open error — it panics, because
`a.Path = a.handle.Name()` dereferences the nil handle.  The error is
captured, and a second `Write` (after recovering) returns it; with a
pre-set `Path` whose `os.Create` fails, the first and second writes both
return the captured error as claimed. -/
theorem fileBuffer_tempfile_failure_panics :
    ((CV.FileBuffer.mk0 "").write (fun _ => none) [1]
        ⟨.error (GoError.osError "temp failure"), none, none⟩).2.2 =
      .panicked "runtime error: invalid memory address or nil pointer dereference" ∧
    ((CV.FileBuffer.mk0 "").write (fun _ => none) [1]
        ⟨.error (GoError.osError "temp failure"), none, none⟩).1.openError =
      some (GoError.osError "temp failure") ∧
    ((((CV.FileBuffer.mk0 "").write (fun _ => none) [1]
        ⟨.error (GoError.osError "temp failure"), none, none⟩).1).write (fun _ => none) [2]
        ⟨.error (GoError.osError "temp failure"), none, none⟩).2.2 =
      .ret (0, some (GoError.osError "temp failure")) ∧
    ((CV.FileBuffer.mk0 "/p").write (fun _ => none) [1]
        ⟨.ok "/t", some (GoError.osError "create failure"), none⟩).2.2 =
      .ret (0, some (GoError.osError "create failure")) ∧
    ((((CV.FileBuffer.mk0 "/p").write (fun _ => none) [1]
        ⟨.ok "/t", some (GoError.osError "create failure"), none⟩).1).write (fun _ => none) [2]
        ⟨.ok "/t", some (GoError.osError "create failure"), none⟩).2.2 =
      .ret (0, some (GoError.osError "create failure")) := by
  decide

/-- C10 (code bug): when `Query` succeeds with zero remote releases it
stores a non-nil empty slice, so the nil guard in `LatestRelease` does not
fire and `app.releases[0]` is an out-of-bounds index: `LatestRelease`
panics instead of returning nil. -/
theorem latestRelease_after_empty_query_panics :
    ((NewGitHub "hverr" "go-updater").query ⟨.ok [], .ok "sha"⟩).2 = none ∧
    ((NewGitHub "hverr" "go-updater").query ⟨.ok [], .ok "sha"⟩).1.releases = some [] ∧
    (((NewGitHub "hverr" "go-updater").query ⟨.ok [], .ok "sha"⟩).1).latestRelease =
      .panicked "runtime error: index out of range [0] with length 0" := by
  decide

/-- C3: closing a `DelayedFile` on which `Abort` was called returns no
error, leaves the destination path exactly as it was (in particular, if
absent it stays absent), and removes the staging file. -/
theorem abort_suppresses_publish (f : CV.DelayedFile) (fs : FS) (o : CV.CloseOracle)
    (hne : f.buffer.Path ≠ f.path) :
    ((f.abort).close fs o).2.2 = none ∧
    ((f.abort).close fs o).2.1 f.path = fs f.path ∧
    ((f.abort).close fs o).2.1 f.buffer.Path = none := by
  refine ⟨?_, ?_, ?_⟩ <;>
    simp [CV.DelayedFile.abort, CV.DelayedFile.close, CV.DelayedFile.closeBody,
      osRemove, FS.del, Ne.symm hne]

/-- Witness for C3 at a concrete aborted file. -/
theorem abort_suppresses_publish_witness :
    ("/t" : String) ≠ "/dest" ∧
    (((⟨"/dest", ⟨"/t", true, none, some ⟨"/t", false⟩⟩, false⟩ :
        CV.DelayedFile).abort).close (fun _ => none) benignC).2.2 = none ∧
    (((⟨"/dest", ⟨"/t", true, none, some ⟨"/t", false⟩⟩, false⟩ :
        CV.DelayedFile).abort).close (fun _ => none) benignC).2.1 "/dest" =
      (fun _ => none : FS) "/dest" ∧
    (((⟨"/dest", ⟨"/t", true, none, some ⟨"/t", false⟩⟩, false⟩ :
        CV.DelayedFile).abort).close (fun _ => none) benignC).2.1 "/t" = none :=
  ⟨by decide, abort_suppresses_publish _ _ _ (by decide)⟩

/-- C9 (counterexample to the claim as stated): a `FileBuffer` whose handle
was opened by a first write and closed once returns a non-nil error — the
underlying file's already-closed error — from the second `Close`, instead
of the claimed nil. -/
theorem fileBuffer_double_close_errs :
    (((CV.FileBuffer.mk0 "/f").write (fun _ => none) [7] ⟨.ok "/t", none, none⟩).1.close).2
      = none ∧
    ((((CV.FileBuffer.mk0 "/f").write (fun _ => none) [7]
        ⟨.ok "/t", none, none⟩).1.close).1.close).2 ≠ none := by
  decide

/-- C9 (amended): `Close` returns no error on a never-opened instance, and
repeating it is again a no-op returning no error; after a successful open,
the first `Close` returns no error but a second one returns the underlying
file's already-closed error. -/
theorem fileBuffer_close_semantics (a : CV.FileBuffer) :
    (a.handle = none → a.close = (a, none) ∧ a.close.1.close = (a, none)) ∧
    (∀ h : Handle, a.handle = some h → h.closed = false →
      a.close.2 = none ∧
      a.close.1.close.2 = some (GoError.osError "file already closed")) := by
  constructor
  · intro hn
    simp [CV.FileBuffer.close, hn]
  · intro h hs hc
    simp [CV.FileBuffer.close, hs, handleClose, hc]

/-- Witness for C9 (amended) at an opened concrete buffer and at a
never-opened one. -/
theorem fileBuffer_close_semantics_witness :
    ((⟨"/f", true, none, some ⟨"/f", false⟩⟩ : CV.FileBuffer).handle = some ⟨"/f", false⟩ ∧
      (⟨"/f", true, none, some ⟨"/f", false⟩⟩ : CV.FileBuffer).close.2 = none ∧
      (⟨"/f", true, none, some ⟨"/f", false⟩⟩ : CV.FileBuffer).close.1.close.2 =
        some (GoError.osError "file already closed")) ∧
    ((CV.FileBuffer.mk0 "").handle = none ∧
      (CV.FileBuffer.mk0 "").close = (CV.FileBuffer.mk0 "", none)) :=
  ⟨⟨rfl, (fileBuffer_close_semantics _).2 ⟨"/f", false⟩ rfl rfl⟩,
   ⟨rfl, ((fileBuffer_close_semantics _).1 rfl).1⟩⟩

/-- C8: when the app query succeeds and the latest release's identifier
equals the updater's current release identifier, `Check` returns a nil
release and no error; and `Check` never invokes the `WriterForAsset`
callback — its entire outcome is independent of that field. -/
theorem check_up_to_date {α ω : Type} (u : Updater α ω) (s : α) (r : ReleaseData)
    (hq : (u.App.query s).2 = none)
    (hr : u.App.latestRelease (u.App.query s).1 = some r)
    (hid : r.identifier = u.CurrentReleaseIdentifier) :
    (u.check s).2 = (none, none) ∧
    ∀ w : AssetData → Except GoError (Option ω),
      ({ u with WriterForAsset := w } : Updater α ω).check s = u.check s := by
  constructor
  · rcases h : u.App.query s with ⟨s1, e⟩
    rw [h] at hq hr
    simp only at hq hr
    subst hq
    simp [Updater.check, h, hr, hid]
  · intro w
    rfl

/-- Witness for C8 at a one-release app already up to date. -/
theorem check_up_to_date_witness :
    (((⟨⟨fun s => (s, none), fun _ => some ⟨"v1", "", "abc", []⟩⟩, "abc",
        fun _ => .ok none⟩ : Updater Unit Unit).App.query ()).2 = none) ∧
    ((⟨⟨fun s => (s, none), fun _ => some ⟨"v1", "", "abc", []⟩⟩, "abc",
        fun _ => .ok none⟩ : Updater Unit Unit).check ()).2 = (none, none) :=
  ⟨rfl, (check_up_to_date _ () ⟨"v1", "", "abc", []⟩ rfl rfl rfl).1⟩

/-- C2: writes to a `DelayedFile` — any number of them, under arbitrary
per-call I/O outcomes — never change the destination path's contents; the
only premise is that the temporary paths the system hands out differ from
the destination (guaranteed by `ioutil.TempFile`'s fresh generated name). -/
theorem delayedFile_write_isolation (P : String) (fs : FS)
    (ws : List (List Nat × WriteOracle))
    (hP : P ≠ "")
    (hws : ∀ w ∈ ws, oracleTempPath w.2 ≠ some P) :
    (((CV.NewDelayedFile P).writeSeq fs ws).2) P = fs P :=
  CV.DelayedFile.writeSeq_frame ws (CV.NewDelayedFile P) fs P (Ne.symm hP)
    (fun _ hh => by cases hh) hws

/-- Witness for C2: two writes against an absent destination leave it
absent. -/
theorem delayedFile_write_isolation_witness :
    (("/dest" : String) ≠ "") ∧
    (((CV.NewDelayedFile "/dest").writeSeq (fun _ => none)
        [([104, 105], ⟨.ok "/tmp/atomic-1", none, none⟩),
         ([33], ⟨.ok "/tmp/atomic-1", none, some (GoError.osError "disk full")⟩)]).2)
      "/dest" = (fun _ => none : FS) "/dest" :=
  ⟨by decide, delayedFile_write_isolation "/dest" _ _ (by decide) (by decide)⟩

/-- C1: round trip.  Writing a non-empty sequence of chunks to a fresh
`DelayedFile` (all writes succeeding), then closing without abort: whenever
the close reports no error, the destination — previously absent — holds
exactly the concatenation of the written chunks in write order, and the
staging file at the buffer's path is gone. -/
theorem delayedFile_round_trip (P t : String) (fs : FS) (c : List Nat)
    (rest : List (List Nat)) (o : CV.CloseOracle)
    (htP : t ≠ P) (_hfresh : fs t = none) (hdest : fs P = none)
    (hok : ((((CV.NewDelayedFile P).writeList fs (c :: rest) t).1).close
        (((CV.NewDelayedFile P).writeList fs (c :: rest) t).2) o).2.2 = none) :
    ((((CV.NewDelayedFile P).writeList fs (c :: rest) t).1).close
        (((CV.NewDelayedFile P).writeList fs (c :: rest) t).2) o).2.1 P =
      some ⟨(c :: rest).flatten, 438⟩ ∧
    ((((CV.NewDelayedFile P).writeList fs (c :: rest) t).1).close
        (((CV.NewDelayedFile P).writeList fs (c :: rest) t).2) o).2.1
      ((((CV.NewDelayedFile P).writeList fs (c :: rest) t).1).buffer.Path) = none := by
  have hwl : (CV.NewDelayedFile P).writeList fs (c :: rest) t =
      (⟨P, ⟨t, true, none, some ⟨t, false⟩⟩, false⟩,
        fs.set t ⟨c ++ rest.flatten, 384⟩) := by
    unfold CV.DelayedFile.writeList
    rw [CV.DelayedFile.write_first]
    dsimp only
    rw [CV.DelayedFile.writeList_steady rest P t t (fs.set t ⟨c, 384⟩) c 384
      (FS.set_same fs t ⟨c, 384⟩)]
    rw [FS.set_set]
  rw [hwl] at hok ⊢
  exact CV.DelayedFile.close_ready P t (fs.set t ⟨c ++ rest.flatten, 384⟩)
    (c ++ rest.flatten) 384 o htP (FS.set_same _ _ _)
    ((FS.set_other fs t P _ (Ne.symm htP)).trans hdest) hok

/-- Witness for C1: the bytes of `"hel"` written in two chunks land at the
destination and the staging file is gone. -/
theorem delayedFile_round_trip_witness :
    (("/tmp/a0" : String) ≠ "/dest") ∧
    ((((CV.NewDelayedFile "/dest").writeList (fun _ => none) [[104, 101], [108]]
        "/tmp/a0").1).close
      (((CV.NewDelayedFile "/dest").writeList (fun _ => none) [[104, 101], [108]]
        "/tmp/a0").2) benignC).2.2 = none ∧
    ((((CV.NewDelayedFile "/dest").writeList (fun _ => none) [[104, 101], [108]]
        "/tmp/a0").1).close
      (((CV.NewDelayedFile "/dest").writeList (fun _ => none) [[104, 101], [108]]
        "/tmp/a0").2) benignC).2.1 "/dest" = some ⟨[104, 101, 108], 438⟩ :=
  ⟨by decide, by decide,
    (delayedFile_round_trip "/dest" "/tmp/a0" _ [104, 101] [[108]] benignC
      (by decide) rfl rfl (by decide)).1⟩

/-- C7: a publishing (non-aborted) rename-based close with an existing
destination of mode `m` re-applies exactly `m` to the newly published file,
and a failure of that `os.Chmod` is returned as the close's error; with an
absent destination the close succeeds, publishes the staged file as it is,
and attempts no permission-copy step at all — its entire outcome is
independent of the chmod oracle. -/
theorem delayedFile_close_preserves_mode (f : RV.DelayedFile) (fs : FS)
    (o : RV.RCloseOracle) (src : FSFile)
    (hab : f.aborted = false)
    (hne : f.buffer.Path ≠ f.path)
    (hsrc : fs f.buffer.Path = some src)
    (hren : o.renameErr = none) :
    (∀ d m, fs f.path = some ⟨d, m⟩ →
      (o.chmodErr = none →
        (f.close fs o).2.2 = none ∧
        (f.close fs o).2.1 f.path = some ⟨src.data, m⟩) ∧
      (∀ e, o.chmodErr = some e → (f.close fs o).2.2 = some e)) ∧
    (fs f.path = none →
      (f.close fs o).2.2 = none ∧
      (f.close fs o).2.1 f.path = some src ∧
      ∀ c : Option GoError, f.close fs ⟨none, c⟩ = f.close fs o) := by
  obtain ⟨re, ce⟩ := o
  dsimp only at hren
  subst hren
  constructor
  · intro d m hdm
    constructor
    · intro hce
      dsimp only at hce
      subst hce
      refine ⟨?_, ?_⟩ <;>
        simp [RV.DelayedFile.close, RV.DelayedFile.closeBody, osRemove, hab, hsrc,
          hdm, RV.FileBuffer.close_fst_Path, Ne.symm hne]
    · intro e hce
      dsimp only at hce
      subst hce
      simp [RV.DelayedFile.close, RV.DelayedFile.closeBody, osRemove, hab, hsrc,
        hdm, RV.FileBuffer.close_fst_Path]
  · intro hdp
    refine ⟨?_, ?_, ?_⟩ <;> [skip; skip; intro c] <;>
      simp [RV.DelayedFile.close, RV.DelayedFile.closeBody, osRemove, hab, hsrc,
        hdp, RV.FileBuffer.close_fst_Path, Ne.symm hne]

/-- Witness for C7 at an existing destination of mode `0o755 = 493`: the
published file keeps its data and regains mode 493. -/
theorem delayedFile_close_preserves_mode_witness :
    ((⟨"/dest", ⟨"/t", true, none, some ⟨"/t", false⟩, false⟩, false⟩ :
        RV.DelayedFile).aborted = false) ∧
    ((fun q => if q = "/t" then some ⟨[9], 384⟩
       else if q = "/dest" then some ⟨[1], 493⟩ else none : FS) "/t" =
      some ⟨[9], 384⟩) ∧
    (((⟨"/dest", ⟨"/t", true, none, some ⟨"/t", false⟩, false⟩, false⟩ :
        RV.DelayedFile).close
      (fun q => if q = "/t" then some ⟨[9], 384⟩
       else if q = "/dest" then some ⟨[1], 493⟩ else none) ⟨none, none⟩).2.2 = none ∧
     ((⟨"/dest", ⟨"/t", true, none, some ⟨"/t", false⟩, false⟩, false⟩ :
        RV.DelayedFile).close
      (fun q => if q = "/t" then some ⟨[9], 384⟩
       else if q = "/dest" then some ⟨[1], 493⟩ else none) ⟨none, none⟩).2.1 "/dest" =
      some ⟨[9], 493⟩) :=
  ⟨rfl, by decide,
    ((delayedFile_close_preserves_mode _ _ _ ⟨[9], 384⟩ rfl (by decide)
      (by decide) rfl).1 [1] 493 (by decide)).1 rfl⟩
